import Mathlib

/-!
Shallow embedding of the Depth Protocol Grant Engine core logic
(`src/DGE.jsx`).  JavaScript numbers are modelled as exact rationals
(`ℚ`); `Math.floor` / `Math.ceil` become `Int.floor` / `Int.ceil`.
The React component state (the `useState` hooks) becomes the record
`DGEState`; each event handler becomes one branch of the transition
function `step`.  Handlers that only post a toast message and do not
touch governance state are modelled as the identity on the state,
exactly as in the source.
-/

namespace DGE

/-- FUNDING LIMITS & SCALING: base grant awarded at `MIN_D_METRIC_REQUIRED`. -/
def MIN_GRANT_CAP : ℚ := 1000

/-- Max grant awarded at `D_METRIC_SCALE`. -/
def MAX_GRANT_CAP : ℚ := 10000

/-- Max D-Metric required for the 10000 USD capacity. -/
def D_METRIC_SCALE : ℚ := 250

/-- Minimum D-Metric to even submit a proposal. -/
def MIN_D_METRIC_REQUIRED : ℚ := 10

/-- Points added to the D-Metric upon successful grant completion. -/
def D_METRIC_BOOST : ℚ := 20

/-- Points deducted upon failure/slashing. -/
def D_METRIC_PENALTY : ℚ := 10

/-- SECURITY & BONDING: required stake amount to submit a proposal (USD). -/
def BUILDER_BOND_USD : ℚ := 300

/-- Simulated $DEPTH token price. -/
def GOVERNANCE_TOKEN_PRICE : ℚ := 0.5

/-- Minimum amount a founder can request. -/
def MIN_GRANT_REQUESTED : ℚ := 100

/-- ADAPTIVE QUORUM: absolute minimum voter turnout required. -/
def AQ_BASE_PERCENTAGE : ℚ := 0.05

/-- Quorum sensitivity multiplier (1e-8). -/
def AQ_SENSITIVITY_MULTIPLIER : ℚ := 0.00000001

/-- Hard cap on the quorum requirement. -/
def AQ_QUORUM_CEILING : ℚ := 0.15

/-- Embeds `calculateFundingCap` from `src/DGE.jsx` lines 29-43: maximum funding
cap based on the D-Metric (credibility-based allocation). -/
def calculateFundingCap (dMetric : ℚ) : ℚ :=
  if dMetric < MIN_D_METRIC_REQUIRED then 0
  else if D_METRIC_SCALE ≤ dMetric then MAX_GRANT_CAP
  else
    let scaleRange := D_METRIC_SCALE - MIN_D_METRIC_REQUIRED
    let capRange := MAX_GRANT_CAP - MIN_GRANT_CAP
    let dMetricAdjusted := dMetric - MIN_D_METRIC_REQUIRED
    ((⌊MIN_GRANT_CAP + capRange * (dMetricAdjusted / scaleRange)⌋ : ℤ) : ℚ)

/-- Embeds `getBuilderBondAmount` from `src/DGE.jsx` lines 48-50: required
builder-bond stake in $DEPTH tokens, `Math.ceil(BUILDER_BOND_USD / tokenPrice)`.
The source performs no input validation.  (At `tokenPrice = 0` JavaScript
produces the non-finite value `Infinity`, which has no rational counterpart;
theorems below therefore only evaluate this function at nonzero prices.) -/
def getBuilderBondAmount (tokenPrice : ℚ) : ℚ :=
  ((⌈BUILDER_BOND_USD / tokenPrice⌉ : ℤ) : ℚ)

/-- The adaptive-quorum calculation from `src/DGE.jsx` lines 72-75
(the `useMemo` body), as a function of the supply input.  The source
performs no input validation. -/
def adaptiveQuorum (depthSupply : ℚ) : ℚ :=
  min (AQ_BASE_PERCENTAGE + depthSupply * AQ_SENSITIVITY_MULTIPLIER) AQ_QUORUM_CEILING

/-- One milestone entry of the grant structure. -/
structure Milestone where
  name : String
  percent : ℚ
deriving DecidableEq

/-- Embeds `GRANT_MILESTONES` from `src/DGE.jsx` lines 78-83. -/
def GRANT_MILESTONES : List Milestone :=
  [⟨"Phase 1: Proof of Concept", 25⟩,
   ⟨"Phase 2: Alpha Launch & Testnet", 30⟩,
   ⟨"Phase 3: Community Feedback Loop", 25⟩,
   ⟨"Phase 4: Mainnet Launch & Review", 20⟩]

/-- Embeds `grantCapStatus` from `src/DGE.jsx` line 86. -/
def grantCapStatus (grantRequested maxCap : ℚ) : String :=
  if maxCap < grantRequested then "Exceeds Cap" else "Within Cap"

/-- Embeds `isEligibleForSubmission` from `src/DGE.jsx` line 89, as a function of
the D-Metric, the derived `maxCap`, and the requested amount. -/
def isEligibleForSubmission (dMetric maxCap grantRequested : ℚ) : Bool :=
  decide (MIN_D_METRIC_REQUIRED ≤ dMetric) &&
  decide (grantCapStatus grantRequested maxCap = "Within Cap") &&
  decide (MIN_GRANT_REQUESTED ≤ grantRequested)

/-- The governance-relevant component state of `App` (`src/DGE.jsx`
lines 56-64): the `useState` hooks, minus the toast message. -/
structure DGEState where
  dMetric : ℚ
  depthSupply : ℚ
  grantRequested : ℚ
  isSubmitted : Bool
  isApproved : Bool
  isSlashingVoteActive : Bool
  milestoneProgress : ℕ
deriving DecidableEq

/-- The initial component state (`src/DGE.jsx` lines 56-64):
D-Metric starts at the minimum eligibility floor. -/
def initState : DGEState :=
  { dMetric := MIN_D_METRIC_REQUIRED
    depthSupply := 10000000
    grantRequested := MIN_GRANT_CAP
    isSubmitted := false
    isApproved := false
    isSlashingVoteActive := false
    milestoneProgress := 0 }

/-- Embeds `fundsReleased` from `src/DGE.jsx` lines 92-101: zero before initial
approval, otherwise the sum of the tranches of the completed milestones. -/
def fundsReleased (s : DGEState) : ℚ :=
  if ¬s.isApproved ∧ ¬s.isSlashingVoteActive then 0
  else ((GRANT_MILESTONES.take s.milestoneProgress).map
          (fun m => s.grantRequested * (m.percent / 100))).sum

/-- Embeds `fundsRemaining` from `src/DGE.jsx` line 103. -/
def fundsRemaining (s : DGEState) : ℚ :=
  s.grantRequested - fundsReleased s

/-- The event handlers of `App`: the five lifecycle handlers plus the three
input-change handlers (which route through `handleInputChange`). -/
inductive Action where
  | submit : Action
  | daoVote (passed : Bool) : Action
  | milestoneSuccess : Action
  | founderDefault : Action
  | slashingVote (slash : Bool) : Action
  | setDMetric (v : ℤ) : Action
  | setGrantRequested (v : ℤ) : Action
  | setDepthSupply (v : ℤ) : Action
deriving DecidableEq

/-- Whether an action belongs to the grant-lifecycle state machine proper
(the input-change handlers are external input edits, not transitions). -/
def Action.isMachine : Action → Prop
  | .setDMetric _ => False
  | .setGrantRequested _ => False
  | .setDepthSupply _ => False
  | _ => True

instance (a : Action) : Decidable a.isMachine := by
  cases a <;> simp [Action.isMachine] <;> infer_instance

/-- Embeds `handleInputChange` from `src/DGE.jsx` lines 106-113: applies the
setter and resets all governance progress. -/
def handleInputChange (s : DGEState) (apply : DGEState → DGEState) : DGEState :=
  { apply s with
    isSubmitted := false
    isApproved := false
    isSlashingVoteActive := false
    milestoneProgress := 0 }

/-- The transition function: each `Action` is the corresponding event
handler of `src/DGE.jsx` (lines 128-240 and 106-113).  Handlers whose
guard fails only post a message in the source, so here they leave the
state unchanged.  `slashingVote` mirrors `simulateSlashingVote`
(lines 216-240), which has no guard at all. -/
def step (s : DGEState) : Action → DGEState
  | .submit =>
      if isEligibleForSubmission s.dMetric (calculateFundingCap s.dMetric)
           s.grantRequested
      then { s with isSubmitted := true }
      else s
  | .daoVote passed =>
      if s.isSubmitted ∧ ¬s.isApproved then
        if passed then
          { s with isApproved := true, milestoneProgress := 1 }
        else
          { s with isSubmitted := false }
      else s
  | .milestoneSuccess =>
      if s.isApproved ∧ s.milestoneProgress < GRANT_MILESTONES.length then
        let isFinalMilestone := s.milestoneProgress + 1 = GRANT_MILESTONES.length
        { s with
          milestoneProgress := s.milestoneProgress + 1
          dMetric :=
            if isFinalMilestone then
              min D_METRIC_SCALE (s.dMetric + D_METRIC_BOOST)
            else s.dMetric }
      else s
  | .founderDefault =>
      if s.isApproved ∧ ¬s.isSlashingVoteActive ∧
           s.milestoneProgress < GRANT_MILESTONES.length then
        { s with isSlashingVoteActive := true }
      else s
  | .slashingVote slash =>
      { s with
        isSlashingVoteActive := false
        isApproved := false
        dMetric :=
          if slash then
            max MIN_D_METRIC_REQUIRED (s.dMetric - D_METRIC_PENALTY)
          else s.dMetric }
  | .setDMetric v =>
      handleInputChange s (fun t => { t with dMetric := (v : ℚ) })
  | .setGrantRequested v =>
      handleInputChange s
        (fun t => { t with grantRequested := min MAX_GRANT_CAP (max MIN_GRANT_REQUESTED (v : ℚ)) })
  | .setDepthSupply v =>
      handleInputChange s (fun t => { t with depthSupply := (v : ℚ) })

/-- Constraints the input widgets place on the raw input values:
the D-Metric slider has `min=0 max=250` (`src/DGE.jsx` lines 310-312),
the supply slider has `min=1000000 max=20000000` (lines 329-330); the
grant-amount field is clamped inside the handler itself (line 351). -/
def inputOk : Action → Prop
  | .setDMetric v => 0 ≤ v ∧ v ≤ 250
  | .setDepthSupply v => 1000000 ≤ v ∧ v ≤ 20000000
  | _ => True

instance (a : Action) : Decidable (inputOk a) := by
  cases a <;> simp [inputOk] <;> infer_instance

/-- States reachable from the initial component state by event handlers
whose raw inputs satisfy the widget constraints. -/
inductive Reachable : DGEState → Prop
  | init : Reachable initState
  | tr (s : DGEState) (a : Action) : Reachable s → inputOk a →
      Reachable (step s a)

/-- Rounds a rational to the nearest integer, ties to even — the tie rule
of IEEE 754 round-to-nearest, which JavaScript number arithmetic uses. -/
def roundHalfEven (q : ℚ) : ℤ :=
  if q - ⌊q⌋ < 1 / 2 then ⌊q⌋
  else if 1 / 2 < q - ⌊q⌋ then ⌊q⌋ + 1
  else if Even ⌊q⌋ then ⌊q⌋ else ⌊q⌋ + 1

/-- Rounds a rational to the nearest IEEE 754 binary64 value (53-bit
significand, round to nearest, ties to even).  The exponent is left
unbounded: no overflow, underflow or subnormal occurs at the magnitudes
arising in this development, so this agrees with binary64 there. -/
def roundDouble (y : ℚ) : ℚ :=
  if y = 0 then 0
  else
    let e : ℤ := Int.log 2 |y| - 52
    (roundHalfEven (y / 2 ^ e) : ℚ) * 2 ^ e

/-- Embeds `calculateFundingCap` (`src/DGE.jsx` lines 29-43) with each
arithmetic operation of the interpolation branch rounded to binary64, as
JavaScript evaluates it.  The comparisons and `Math.floor` are exact on
doubles, and integer operands below 2^53 are exactly representable, so
only the explicitly rounded operations can differ from the exact-rational
idealization `calculateFundingCap`. -/
def calculateFundingCapFP (dMetric : ℚ) : ℚ :=
  if dMetric < MIN_D_METRIC_REQUIRED then 0
  else if D_METRIC_SCALE ≤ dMetric then MAX_GRANT_CAP
  else
    let scaleRange := roundDouble (D_METRIC_SCALE - MIN_D_METRIC_REQUIRED)
    let capRange := roundDouble (MAX_GRANT_CAP - MIN_GRANT_CAP)
    let dMetricAdjusted := roundDouble (dMetric - MIN_D_METRIC_REQUIRED)
    ((⌊roundDouble (MIN_GRANT_CAP +
        roundDouble (capRange * roundDouble (dMetricAdjusted / scaleRange)))⌋ : ℤ) : ℚ)

/-! ### Helper lemmas about the binary64 rounding model -/

lemma roundHalfEven_bounds (q : ℚ) :
    ⌊q⌋ ≤ roundHalfEven q ∧ roundHalfEven q ≤ ⌊q⌋ + 1 ∧
      q - 1 / 2 ≤ (roundHalfEven q : ℚ) ∧ (roundHalfEven q : ℚ) ≤ q + 1 / 2 := by
  have h0 : ((⌊q⌋ : ℤ) : ℚ) ≤ q := Int.floor_le q
  have h1 : q < ⌊q⌋ + 1 := Int.lt_floor_add_one q
  rw [roundHalfEven]
  split_ifs with ha hb hc <;>
    refine ⟨by omega, by omega, ?_, ?_⟩ <;> push_cast <;> push_cast at ha <;> linarith

lemma roundHalfEven_intCast (n : ℤ) : roundHalfEven ((n : ℤ) : ℚ) = n := by
  rw [roundHalfEven]
  norm_num

lemma roundHalfEven_mono {q1 q2 : ℚ} (h : q1 ≤ q2) :
    roundHalfEven q1 ≤ roundHalfEven q2 := by
  by_cases hf : ⌊q1⌋ = ⌊q2⌋
  · have hfle : ((⌊q2⌋ : ℤ) : ℚ) ≤ q1 := by
      rw [← hf]
      exact Int.floor_le q1
    rw [roundHalfEven, roundHalfEven, hf]
    have hr : q1 - (⌊q2⌋ : ℚ) ≤ q2 - (⌊q2⌋ : ℚ) := by linarith
    split_ifs <;> first | omega | linarith
  · have hlt : ⌊q1⌋ < ⌊q2⌋ := lt_of_le_of_ne (Int.floor_le_floor h) hf
    obtain ⟨-, hb1, -, -⟩ := roundHalfEven_bounds q1
    obtain ⟨hb2, -, -, -⟩ := roundHalfEven_bounds q2
    omega

lemma two_zpow_pos (e : ℤ) : (0 : ℚ) < 2 ^ e := zpow_pos (by norm_num) e

lemma log2_eq {r : ℚ} {z : ℤ} (hr : 0 < r) (h1 : (2 : ℚ) ^ z ≤ r)
    (h2 : r < (2 : ℚ) ^ (z + 1)) : Int.log 2 r = z := by
  have hb : 1 < (2 : ℕ) := by norm_num
  have hc : ((2 : ℕ) : ℚ) = (2 : ℚ) := by norm_num
  have ha := (Int.zpow_le_iff_le_log hb hr).mp (by rw [hc]; exact h1)
  have hbd := (Int.lt_zpow_iff_log_lt hb hr).mp (by rw [hc]; exact h2)
  omega

lemma log2_le_self {r : ℚ} (hr : 0 < r) : (2 : ℚ) ^ Int.log 2 r ≤ r := by
  have hc : ((2 : ℕ) : ℚ) = (2 : ℚ) := by norm_num
  have := Int.zpow_log_le_self (b := 2) (by norm_num) hr
  rwa [hc] at this

lemma log2_lt_succ (r : ℚ) : r < (2 : ℚ) ^ (Int.log 2 r + 1) := by
  have hc : ((2 : ℕ) : ℚ) = (2 : ℚ) := by norm_num
  have := Int.lt_zpow_succ_log_self (b := 2) (by norm_num) r
  rwa [hc] at this

lemma roundDouble_zero : roundDouble 0 = 0 := by
  rw [roundDouble, if_pos rfl]

lemma roundDouble_err {y : ℚ} (hy : 0 < y) :
    y - y / 2 ^ 53 ≤ roundDouble y ∧ roundDouble y ≤ y + y / 2 ^ 53 := by
  rw [roundDouble, if_neg hy.ne']
  rw [abs_of_pos hy]
  set e : ℤ := Int.log 2 y - 52 with he
  obtain ⟨-, -, h3, h4⟩ := roundHalfEven_bounds (y / 2 ^ e)
  have hpow : (0 : ℚ) < 2 ^ e := two_zpow_pos e
  have hq : y / 2 ^ e * 2 ^ e = y := div_mul_cancel₀ y hpow.ne'
  have hlog : (2 : ℚ) ^ (Int.log 2 y) ≤ y := log2_le_self hy
  have hhalf : (2 : ℚ) ^ e * (1 / 2) ≤ y / 2 ^ 53 := by
    have he2 : (2 : ℚ) ^ e * (1 / 2) = 2 ^ (Int.log 2 y) * (2 : ℚ) ^ (-53 : ℤ) := by
      rw [show (1 / 2 : ℚ) = (2 : ℚ) ^ (-1 : ℤ) by norm_num]
      rw [← zpow_add₀ (by norm_num : (2 : ℚ) ≠ 0),
        ← zpow_add₀ (by norm_num : (2 : ℚ) ≠ 0)]
      congr 1
      omega
    have hz53 : ((2 : ℚ) ^ (-53 : ℤ)) = 1 / 2 ^ 53 := by norm_num
    rw [he2, hz53]
    calc (2 : ℚ) ^ (Int.log 2 y) * (1 / 2 ^ 53) ≤ y * (1 / 2 ^ 53) := by
          apply mul_le_mul_of_nonneg_right hlog (by positivity)
      _ = y / 2 ^ 53 := by ring
  constructor
  · calc y - y / 2 ^ 53 ≤ y - 2 ^ e * (1 / 2) := by linarith
      _ ≤ (roundHalfEven (y / 2 ^ e) : ℚ) * 2 ^ e := by nlinarith
  · calc (roundHalfEven (y / 2 ^ e) : ℚ) * 2 ^ e ≤ y + 2 ^ e * (1 / 2) := by nlinarith
      _ ≤ y + y / 2 ^ 53 := by linarith

lemma roundDouble_pos {y : ℚ} (hy : 0 < y) : 0 < roundDouble y := by
  obtain ⟨h1, -⟩ := roundDouble_err hy
  have h2 : y / 2 ^ 53 < y := div_lt_self hy (by norm_num)
  linarith

lemma roundDouble_nonneg {y : ℚ} (hy : 0 ≤ y) : 0 ≤ roundDouble y := by
  rcases eq_or_lt_of_le hy with h | h
  · rw [← h, roundDouble_zero]
  · exact (roundDouble_pos h).le

lemma roundDouble_mono {y1 y2 : ℚ} (h0 : 0 ≤ y1) (h : y1 ≤ y2) :
    roundDouble y1 ≤ roundDouble y2 := by
  rcases eq_or_lt_of_le h0 with h1 | h1
  · rw [← h1, roundDouble_zero]
    exact roundDouble_nonneg (le_trans h0 h)
  · have h2 : (0 : ℚ) < y2 := lt_of_lt_of_le h1 h
    rw [roundDouble, if_neg h1.ne', roundDouble, if_neg h2.ne',
      abs_of_pos h1, abs_of_pos h2]
    have hL : Int.log 2 y1 ≤ Int.log 2 y2 := Int.log_mono_right h1 h
    rcases eq_or_lt_of_le hL with hLeq | hLlt
    · rw [← hLeq]
      have hpow : (0 : ℚ) < 2 ^ (Int.log 2 y1 - 52) := two_zpow_pos _
      have hdiv : y1 / 2 ^ (Int.log 2 y1 - 52) ≤ y2 / 2 ^ (Int.log 2 y1 - 52) :=
        (div_le_div_iff_of_pos_right hpow).mpr h
      exact mul_le_mul_of_nonneg_right
        (by exact_mod_cast roundHalfEven_mono hdiv) hpow.le
    · set L1 := Int.log 2 y1 with hL1
      set L2 := Int.log 2 y2 with hL2
      have hp1 : (0 : ℚ) < 2 ^ (L1 - 52) := two_zpow_pos _
      have hp2 : (0 : ℚ) < 2 ^ (L2 - 52) := two_zpow_pos _
      have hq1lt : y1 / 2 ^ (L1 - 52) < 2 ^ (53 : ℤ) := by
        rw [div_lt_iff₀ hp1]
        calc y1 < 2 ^ (L1 + 1) := log2_lt_succ y1
          _ = 2 ^ (53 : ℤ) * 2 ^ (L1 - 52) := by
              rw [← zpow_add₀ (by norm_num : (2 : ℚ) ≠ 0)]
              congr 1
              omega
      have hm1 : roundHalfEven (y1 / 2 ^ (L1 - 52)) ≤ 2 ^ 53 := by
        obtain ⟨-, hb, -, -⟩ := roundHalfEven_bounds (y1 / 2 ^ (L1 - 52))
        have hfl : ⌊y1 / 2 ^ (L1 - 52)⌋ < (2 ^ 53 : ℤ) := by
          rw [Int.floor_lt]
          calc y1 / 2 ^ (L1 - 52) < 2 ^ (53 : ℤ) := hq1lt
            _ = (((2 : ℤ) ^ 53 : ℤ) : ℚ) := by norm_num
        omega
      have hq2ge : (2 : ℚ) ^ (52 : ℤ) ≤ y2 / 2 ^ (L2 - 52) := by
        rw [le_div_iff₀ hp2]
        calc (2 : ℚ) ^ (52 : ℤ) * 2 ^ (L2 - 52) = 2 ^ L2 := by
              rw [← zpow_add₀ (by norm_num : (2 : ℚ) ≠ 0)]
              congr 1
              omega
          _ ≤ y2 := log2_le_self h2
      have hm2 : (2 ^ 52 : ℤ) ≤ roundHalfEven (y2 / 2 ^ (L2 - 52)) := by
        obtain ⟨hb, -, -, -⟩ := roundHalfEven_bounds (y2 / 2 ^ (L2 - 52))
        have hfl : (2 ^ 52 : ℤ) ≤ ⌊y2 / 2 ^ (L2 - 52)⌋ := by
          rw [Int.le_floor]
          calc (((2 : ℤ) ^ 52 : ℤ) : ℚ) = (2 : ℚ) ^ (52 : ℤ) := by norm_num
            _ ≤ y2 / 2 ^ (L2 - 52) := hq2ge
        omega
      calc (roundHalfEven (y1 / 2 ^ (L1 - 52)) : ℚ) * 2 ^ (L1 - 52)
          ≤ (2 : ℚ) ^ (53 : ℤ) * 2 ^ (L1 - 52) := by
            apply mul_le_mul_of_nonneg_right _ hp1.le
            calc (roundHalfEven (y1 / 2 ^ (L1 - 52)) : ℚ) ≤ ((2 ^ 53 : ℤ) : ℚ) := by
                  exact_mod_cast hm1
              _ = (2 : ℚ) ^ (53 : ℤ) := by norm_num
        _ ≤ (2 : ℚ) ^ (52 : ℤ) * 2 ^ (L2 - 52) := by
            rw [← zpow_add₀ (by norm_num : (2 : ℚ) ≠ 0),
              ← zpow_add₀ (by norm_num : (2 : ℚ) ≠ 0)]
            apply zpow_le_zpow_right₀ (by norm_num)
            omega
        _ ≤ (roundHalfEven (y2 / 2 ^ (L2 - 52)) : ℚ) * 2 ^ (L2 - 52) := by
            apply mul_le_mul_of_nonneg_right _ hp2.le
            calc (2 : ℚ) ^ (52 : ℤ) = ((2 ^ 52 : ℤ) : ℚ) := by norm_num
              _ ≤ (roundHalfEven (y2 / 2 ^ (L2 - 52)) : ℚ) := by exact_mod_cast hm2

lemma roundDouble_intCast_nonneg (n : ℤ) (h1 : 0 ≤ n) (h2 : n < 2 ^ 53) :
    roundDouble ((n : ℤ) : ℚ) = n := by
  rcases eq_or_lt_of_le h1 with h0 | h0
  · rw [← h0]
    exact_mod_cast roundDouble_zero
  · have hy : (0 : ℚ) < (n : ℚ) := by exact_mod_cast h0
    rw [roundDouble, if_neg hy.ne', abs_of_pos hy]
    set L := Int.log 2 ((n : ℤ) : ℚ) with hLdef
    have hLle : L ≤ 52 := by
      have hlt : ((n : ℤ) : ℚ) < (2 : ℚ) ^ (53 : ℤ) := by
        calc ((n : ℤ) : ℚ) < ((2 ^ 53 : ℤ) : ℚ) := by exact_mod_cast h2
          _ = (2 : ℚ) ^ (53 : ℤ) := by norm_num
      have := (Int.lt_zpow_iff_log_lt (b := 2) (by norm_num) hy).mp
        (by norm_num; exact hlt)
      omega
    have hk : (0 : ℤ) ≤ 52 - L := by omega
    have hq : ((n : ℤ) : ℚ) / 2 ^ (L - 52) = ((n * 2 ^ (52 - L).toNat : ℤ) : ℚ) := by
      rw [div_eq_iff (two_zpow_pos (L - 52)).ne']
      push_cast
      rw [← zpow_natCast (2 : ℚ) (52 - L).toNat, Int.toNat_of_nonneg hk,
        mul_assoc, ← zpow_add₀ (by norm_num : (2 : ℚ) ≠ 0)]
      rw [show (52 - L) + (L - 52) = 0 by omega]
      norm_num
    show (roundHalfEven (((n : ℤ) : ℚ) / 2 ^ (L - 52)) : ℚ) * 2 ^ (L - 52) = ((n : ℤ) : ℚ)
    rw [hq, roundHalfEven_intCast]
    push_cast
    rw [← zpow_natCast (2 : ℚ) (52 - L).toNat, Int.toNat_of_nonneg hk,
      mul_assoc, ← zpow_add₀ (by norm_num : (2 : ℚ) ≠ 0)]
    rw [show (52 - L) + (L - 52) = 0 by omega]
    norm_num

lemma roundDouble_240 : roundDouble (240 : ℚ) = 240 := by
  rw [show (240 : ℚ) = ((240 : ℤ) : ℚ) by norm_num,
    roundDouble_intCast_nonneg 240 (by norm_num) (by norm_num)]

lemma roundDouble_9000 : roundDouble (9000 : ℚ) = 9000 := by
  rw [show (9000 : ℚ) = ((9000 : ℤ) : ℚ) by norm_num,
    roundDouble_intCast_nonneg 9000 (by norm_num) (by norm_num)]

lemma roundDouble_146 : roundDouble (146 : ℚ) = 146 := by
  rw [show (146 : ℚ) = ((146 : ℤ) : ℚ) by norm_num,
    roundDouble_intCast_nonneg 146 (by norm_num) (by norm_num)]

/-- First rounding of the reputation-156 chain: `146/240` rounds to the
double `5479379546634103 × 2⁻⁵³` (the fraction `7/15` below the next
midpoint rounds down). -/
lemma roundDouble_156_q1 :
    roundDouble ((146 : ℚ) / 240) = 5479379546634103 / 2 ^ 53 := by
  have hpos : (0 : ℚ) < 146 / 240 := by norm_num
  have hlog : Int.log 2 ((146 : ℚ) / 240) = -1 :=
    log2_eq hpos (by norm_num) (by norm_num)
  rw [roundDouble, if_neg hpos.ne', abs_of_pos hpos, hlog]
  show (roundHalfEven ((146 : ℚ) / 240 / 2 ^ (-1 - 52 : ℤ)) : ℚ) *
      2 ^ (-1 - 52 : ℤ) = 5479379546634103 / 2 ^ 53
  rw [show (146 : ℚ) / 240 / 2 ^ (-1 - 52 : ℤ) = 82190693199511552 / 15 by norm_num]
  rw [show roundHalfEven ((82190693199511552 : ℚ) / 15) = 5479379546634103 by
    rw [roundHalfEven]; norm_num]
  norm_num

/-- Second rounding of the chain: `9000 ×` the first result rounds to the
double `6019826162073599 × 2⁻⁴⁰`, which is strictly below `5475`. -/
lemma roundDouble_156_q2 :
    roundDouble (9000 * ((5479379546634103 : ℚ) / 2 ^ 53)) =
      6019826162073599 / 2 ^ 40 := by
  have hpos : (0 : ℚ) < 9000 * ((5479379546634103 : ℚ) / 2 ^ 53) := by norm_num
  have hlog : Int.log 2 (9000 * ((5479379546634103 : ℚ) / 2 ^ 53)) = 12 :=
    log2_eq hpos (by norm_num) (by norm_num)
  rw [roundDouble, if_neg hpos.ne', abs_of_pos hpos, hlog]
  show (roundHalfEven (9000 * ((5479379546634103 : ℚ) / 2 ^ 53) /
      2 ^ (12 - 52 : ℤ)) : ℚ) * 2 ^ (12 - 52 : ℤ) = 6019826162073599 / 2 ^ 40
  rw [show 9000 * ((5479379546634103 : ℚ) / 2 ^ 53) / 2 ^ (12 - 52 : ℤ) =
      6164301989963365875 / 1024 by norm_num]
  rw [show roundHalfEven ((6164301989963365875 : ℚ) / 1024) = 6019826162073599 by
    rw [roundHalfEven]; norm_num]
  norm_num

/-- Third step of the chain is exact: `1000 + 6019826162073599 × 2⁻⁴⁰`
has numerator `7119337789849599 < 2⁵³` and is itself a double. -/
lemma roundDouble_156_q3 :
    roundDouble ((1000 : ℚ) + 6019826162073599 / 2 ^ 40) =
      1000 + 6019826162073599 / 2 ^ 40 := by
  have hpos : (0 : ℚ) < (1000 : ℚ) + 6019826162073599 / 2 ^ 40 := by norm_num
  have hlog : Int.log 2 ((1000 : ℚ) + 6019826162073599 / 2 ^ 40) = 12 :=
    log2_eq hpos (by norm_num) (by norm_num)
  rw [roundDouble, if_neg hpos.ne', abs_of_pos hpos, hlog]
  show (roundHalfEven (((1000 : ℚ) + 6019826162073599 / 2 ^ 40) /
      2 ^ (12 - 52 : ℤ)) : ℚ) * 2 ^ (12 - 52 : ℤ) =
      1000 + 6019826162073599 / 2 ^ 40
  rw [show ((1000 : ℚ) + 6019826162073599 / 2 ^ 40) / 2 ^ (12 - 52 : ℤ) =
      7119337789849599 by norm_num]
  rw [show roundHalfEven ((7119337789849599 : ℚ)) = 7119337789849599 by
    rw [show (7119337789849599 : ℚ) = ((7119337789849599 : ℤ) : ℚ) by norm_num,
      roundHalfEven_intCast]]
  norm_num

/-- The binary64 funding cap at reputation 156 is 6474 (the exact
interpolation value is 6475; the product `9000 × fl(146/240)` rounds to
`5474.999999999999…`, one ulp below `5475`). -/
lemma capFP_at_156 : calculateFundingCapFP 156 = 6474 := by
  simp only [calculateFundingCapFP, MIN_D_METRIC_REQUIRED, D_METRIC_SCALE,
    MIN_GRANT_CAP, MAX_GRANT_CAP]
  rw [if_neg (by norm_num), if_neg (by norm_num)]
  rw [show (250 : ℚ) - 10 = 240 by norm_num,
    show (10000 : ℚ) - 1000 = 9000 by norm_num,
    show (156 : ℚ) - 10 = 146 by norm_num,
    roundDouble_240, roundDouble_9000, roundDouble_146,
    roundDouble_156_q1, roundDouble_156_q2, roundDouble_156_q3]
  norm_num

/-- The binary64 funding cap at the eligibility floor is exactly 1000
(every operation is exact there). -/
lemma capFP_at_ten : calculateFundingCapFP 10 = 1000 := by
  simp only [calculateFundingCapFP, MIN_D_METRIC_REQUIRED, D_METRIC_SCALE,
    MIN_GRANT_CAP, MAX_GRANT_CAP]
  rw [if_neg (by norm_num), if_neg (by norm_num)]
  rw [show (250 : ℚ) - 10 = 240 by norm_num,
    show (10000 : ℚ) - 1000 = 9000 by norm_num,
    show (10 : ℚ) - 10 = 0 by norm_num,
    roundDouble_240, roundDouble_9000, roundDouble_zero,
    show (0 : ℚ) / 240 = 0 by norm_num, roundDouble_zero,
    show (9000 : ℚ) * 0 = 0 by norm_num, roundDouble_zero,
    show (1000 : ℚ) + 0 = 1000 by norm_num,
    show (1000 : ℚ) = ((1000 : ℤ) : ℚ) by norm_num,
    roundDouble_intCast_nonneg 1000 (by norm_num) (by norm_num)]
  norm_num

/-! ### Helper lemmas about the funding-cap calculator -/

lemma calculateFundingCap_nonneg (x : ℚ) : 0 ≤ calculateFundingCap x := by
  simp only [calculateFundingCap, MIN_GRANT_CAP, MAX_GRANT_CAP, D_METRIC_SCALE,
    MIN_D_METRIC_REQUIRED]
  split_ifs with h1 h2
  · norm_num
  · norm_num
  · have hx : (10 : ℚ) ≤ x := not_lt.mp h1
    have hfloor : (0 : ℤ) ≤ ⌊(1000 : ℚ) + (10000 - 1000) * ((x - 10) / (250 - 10))⌋ := by
      apply Int.le_floor.mpr
      have hdiv : (0 : ℚ) ≤ (x - 10) / (250 - 10) := by
        apply div_nonneg <;> linarith
      push_cast
      nlinarith
    exact_mod_cast hfloor

lemma calculateFundingCap_le_max (x : ℚ) : calculateFundingCap x ≤ 10000 := by
  simp only [calculateFundingCap, MIN_GRANT_CAP, MAX_GRANT_CAP, D_METRIC_SCALE,
    MIN_D_METRIC_REQUIRED]
  split_ifs with h1 h2
  · norm_num
  · norm_num
  · have hx : x < 250 := not_le.mp h2
    have hinner : (1000 : ℚ) + (10000 - 1000) * ((x - 10) / (250 - 10)) ≤ 10000 := by
      have hdiv : (x - 10) / (250 - 10) ≤ 1 := by
        rw [div_le_one (by norm_num)]
        linarith
      nlinarith
    have hfloor : ⌊(1000 : ℚ) + (10000 - 1000) * ((x - 10) / (250 - 10))⌋ ≤ (10000 : ℤ) := by
      calc ⌊(1000 : ℚ) + (10000 - 1000) * ((x - 10) / (250 - 10))⌋
          ≤ ⌊(10000 : ℚ)⌋ := Int.floor_le_floor hinner
        _ = 10000 := by norm_num
    exact_mod_cast hfloor

lemma calculateFundingCap_monotone {a b : ℚ} (hab : a ≤ b) :
    calculateFundingCap a ≤ calculateFundingCap b := by
  by_cases ha1 : a < MIN_D_METRIC_REQUIRED
  · have h : calculateFundingCap a = 0 := by simp [calculateFundingCap, ha1]
    rw [h]
    exact calculateFundingCap_nonneg b
  · by_cases hb2 : D_METRIC_SCALE ≤ b
    · have hb1 : ¬b < MIN_D_METRIC_REQUIRED := by
        simp only [MIN_D_METRIC_REQUIRED, D_METRIC_SCALE, not_lt] at hb2 ⊢
        linarith
      have h : calculateFundingCap b = MAX_GRANT_CAP := by
        simp [calculateFundingCap, hb1, hb2]
      rw [h, MAX_GRANT_CAP]
      exact calculateFundingCap_le_max a
    · by_cases ha2 : D_METRIC_SCALE ≤ a
      · exact absurd (le_trans ha2 hab) hb2
      · have ha1' : ¬a < (10 : ℚ) := by simpa [MIN_D_METRIC_REQUIRED] using ha1
        have ha2' : ¬(250 : ℚ) ≤ a := by simpa [D_METRIC_SCALE] using ha2
        have hb2' : ¬(250 : ℚ) ≤ b := by simpa [D_METRIC_SCALE] using hb2
        have hb1' : ¬b < (10 : ℚ) := by
          simp only [not_lt] at ha1' ⊢
          linarith
        simp only [calculateFundingCap, MIN_GRANT_CAP, MAX_GRANT_CAP, D_METRIC_SCALE,
          MIN_D_METRIC_REQUIRED]
        rw [if_neg ha1', if_neg ha2', if_neg hb1', if_neg hb2']
        have hd : (a - 10) / (250 - 10) ≤ (b - 10) / (250 - 10) := by gcongr
        have hinner : (1000 : ℚ) + (10000 - 1000) * ((a - 10) / (250 - 10)) ≤
            1000 + (10000 - 1000) * ((b - 10) / (250 - 10)) := by nlinarith
        exact_mod_cast Int.floor_le_floor hinner

lemma cap_at_ten : calculateFundingCap 10 = 1000 := by
  simp only [calculateFundingCap, MIN_D_METRIC_REQUIRED, D_METRIC_SCALE,
    MIN_GRANT_CAP, MAX_GRANT_CAP]
  norm_num

lemma cap_interp (d : ℚ) (h1 : 10 ≤ d) (h2 : d < 250) :
    calculateFundingCap d =
      ((⌊(1000 : ℚ) + (10000 - 1000) * ((d - 10) / (250 - 10))⌋ : ℤ) : ℚ) := by
  simp only [calculateFundingCap, MIN_D_METRIC_REQUIRED, D_METRIC_SCALE,
    MIN_GRANT_CAP, MAX_GRANT_CAP]
  rw [if_neg (not_lt.mpr h1), if_neg (not_le.mpr h2)]

lemma cap_interp_ge_thousand (d : ℚ) (h1 : 10 ≤ d) (h2 : d < 250) :
    (1000 : ℚ) ≤ calculateFundingCap d := by
  rw [cap_interp d h1 h2]
  have hfl : (1000 : ℤ) ≤ ⌊(1000 : ℚ) + (10000 - 1000) * ((d - 10) / (250 - 10))⌋ := by
    rw [Int.le_floor]
    have : (0 : ℚ) ≤ (d - 10) / (250 - 10) := by
      apply div_nonneg <;> linarith
    push_cast
    nlinarith
  exact_mod_cast hfl

lemma floor_near_half_int (n : ℤ) (q : ℚ) (hl : (n : ℚ) / 2 - 1 / 4 ≤ q)
    (hu : q ≤ (n : ℚ) / 2 + 1 / 4) :
    ⌊(n : ℚ) / 2⌋ - 1 ≤ ⌊q⌋ ∧ ⌊q⌋ ≤ ⌊(n : ℚ) / 2⌋ := by
  rcases Int.even_or_odd n with ⟨k, hk⟩ | ⟨k, hk⟩
  · subst hk
    have h2 : ((k + k : ℤ) : ℚ) / 2 = ((k : ℤ) : ℚ) := by push_cast; ring
    rw [h2] at hl hu ⊢
    rw [Int.floor_intCast]
    constructor
    · rw [Int.le_floor]
      push_cast
      linarith
    · have hlt : ⌊q⌋ < k + 1 := by
        rw [Int.floor_lt]
        push_cast
        linarith
      omega
  · subst hk
    have hfl : ⌊((2 * k + 1 : ℤ) : ℚ) / 2⌋ = k := by
      rw [Int.floor_eq_iff]
      constructor <;> push_cast <;> linarith
    rw [hfl]
    have hq : ⌊q⌋ = k := by
      rw [Int.floor_eq_iff]
      push_cast at hl hu ⊢
      constructor <;> linarith
    rw [hq]
    omega

/-- On the interpolation range the binary64 funding cap lies within one
unit below the exact-rational funding cap: each of the three rounded
operations carries a relative error of at most `2⁻⁵³`, the exact value
`1000 + 37.5 × (reputation − 10)` is a multiple of `1/2`, and a total
error below `1/4` can only move the floor down by one at integer exact
values. -/
lemma capFP_interp_bounds (d : ℤ) (h1 : (10 : ℚ) ≤ (d : ℚ)) (h2 : (d : ℚ) < 250) :
    calculateFundingCap (d : ℚ) - 1 ≤ calculateFundingCapFP (d : ℚ) ∧
      calculateFundingCapFP (d : ℚ) ≤ calculateFundingCap (d : ℚ) := by
  by_cases hten : d = 10
  · subst hten
    rw [show ((10 : ℤ) : ℚ) = (10 : ℚ) by norm_num, capFP_at_ten, cap_at_ten]
    norm_num
  · have hd10 : (10 : ℤ) ≤ d := by exact_mod_cast h1
    have hd249 : d ≤ 249 := by
      have : d < 250 := by exact_mod_cast h2
      omega
    have hd11 : (11 : ℤ) ≤ d := by omega
    simp only [calculateFundingCapFP, MIN_D_METRIC_REQUIRED, D_METRIC_SCALE,
      MIN_GRANT_CAP, MAX_GRANT_CAP]
    rw [if_neg (not_lt.mpr h1), if_neg (not_le.mpr h2)]
    rw [show (250 : ℚ) - 10 = 240 by norm_num,
      show (10000 : ℚ) - 1000 = 9000 by norm_num,
      roundDouble_240, roundDouble_9000]
    have hadj : roundDouble ((d : ℚ) - 10) = ((d : ℚ) - 10) := by
      rw [show ((d : ℚ) - 10) = ((d - 10 : ℤ) : ℚ) by push_cast; ring]
      rw [roundDouble_intCast_nonneg (d - 10) (by omega)
        (by rw [show (2 : ℤ) ^ 53 = 9007199254740992 by norm_num]; omega)]
    rw [hadj]
    set x : ℚ := (d : ℚ) - 10 with hxdef
    have hx1 : (1 : ℚ) ≤ x := by
      have h11 : ((11 : ℤ) : ℚ) ≤ ((d : ℤ) : ℚ) := by exact_mod_cast hd11
      push_cast at h11
      rw [hxdef]
      linarith
    have hx239 : x ≤ 239 := by
      have h249 : ((d : ℤ) : ℚ) ≤ ((249 : ℤ) : ℚ) := by exact_mod_cast hd249
      push_cast at h249
      rw [hxdef]
      linarith
    have hy1pos : (0 : ℚ) < x / 240 := div_pos (by linarith) (by norm_num)
    have hy1le : x / 240 ≤ 1 := by
      rw [div_le_one (by norm_num)]
      linarith
    obtain ⟨e1l, e1u⟩ := roundDouble_err hy1pos
    set q1 := roundDouble (x / 240) with hq1def
    have hq1pos : 0 < q1 := roundDouble_pos hy1pos
    have herr1 : x / 240 / 2 ^ 53 ≤ 1 / 2 ^ 53 :=
      (div_le_div_iff_of_pos_right (by norm_num)).mpr hy1le
    have hq1u : q1 ≤ 2 := by
      have : (1 : ℚ) / 2 ^ 53 ≤ 1 := by norm_num
      linarith
    have hy2pos : (0 : ℚ) < 9000 * q1 := by positivity
    obtain ⟨e2l, e2u⟩ := roundDouble_err hy2pos
    set q2 := roundDouble (9000 * q1) with hq2def
    have hy2u : 9000 * q1 ≤ 18000 := by linarith
    have herr2 : 9000 * q1 / 2 ^ 53 ≤ 18000 / 2 ^ 53 :=
      (div_le_div_iff_of_pos_right (by norm_num)).mpr hy2u
    have hq2pos : 0 < q2 := roundDouble_pos hy2pos
    have hq2u : q2 ≤ 18003 := by
      have : (18000 : ℚ) / 2 ^ 53 ≤ 3 := by norm_num
      linarith
    have hy3pos : (0 : ℚ) < 1000 + q2 := by linarith
    obtain ⟨e3l, e3u⟩ := roundDouble_err hy3pos
    set q3 := roundDouble (1000 + q2) with hq3def
    have hy3u : 1000 + q2 ≤ 19003 := by linarith
    have herr3 : (1000 + q2) / 2 ^ 53 ≤ 19003 / 2 ^ 53 :=
      (div_le_div_iff_of_pos_right (by norm_num)).mpr hy3u
    set E : ℚ := 1000 + 9000 * (x / 240) with hEdef
    have hm1l := mul_le_mul_of_nonneg_left e1l (show (0 : ℚ) ≤ 9000 by norm_num)
    have hm1u := mul_le_mul_of_nonneg_left e1u (show (0 : ℚ) ≤ 9000 by norm_num)
    have hsmall : (9000 : ℚ) * (1 / 2 ^ 53) + 18000 / 2 ^ 53 + 19003 / 2 ^ 53 ≤ 1 / 4 := by
      norm_num
    have hm1l' : 9000 * (x / 240) - 9000 * (1 / 2 ^ 53) ≤ 9000 * q1 := by
      have := mul_le_mul_of_nonneg_left herr1 (show (0 : ℚ) ≤ 9000 by norm_num)
      nlinarith
    have hm1u' : 9000 * q1 ≤ 9000 * (x / 240) + 9000 * (1 / 2 ^ 53) := by
      have := mul_le_mul_of_nonneg_left herr1 (show (0 : ℚ) ≤ 9000 by norm_num)
      nlinarith
    have hEq3l : E - 1 / 4 ≤ q3 := by
      rw [hEdef]
      linarith
    have hEq3u : q3 ≤ E + 1 / 4 := by
      rw [hEdef]
      linarith
    set n : ℤ := 2000 + 75 * (d - 10) with hndef
    have hEn : E = (n : ℚ) / 2 := by
      rw [hEdef, hxdef, hndef]
      push_cast
      field_simp
      ring
    obtain ⟨hs1, hs2⟩ := floor_near_half_int n q3 (by rw [← hEn]; exact hEq3l)
      (by rw [← hEn]; exact hEq3u)
    have hargE : (1000 : ℚ) + (10000 - 1000) * (((d : ℚ) - 10) / (250 - 10)) = E := by
      rw [hEdef, hxdef]
      norm_num
    have hcap : calculateFundingCap (d : ℚ) = ((⌊(n : ℚ) / 2⌋ : ℤ) : ℚ) := by
      rw [cap_interp (d : ℚ) h1 h2, hargE, hEn]
    rw [hcap]
    constructor
    · have : ((⌊(n : ℚ) / 2⌋ - 1 : ℤ) : ℚ) ≤ ((⌊q3⌋ : ℤ) : ℚ) := by
        exact_mod_cast hs1
      push_cast at this ⊢
      linarith
    · exact_mod_cast hs2

/-- The binary64 funding cap is monotone in the (integer) reputation. -/
lemma capFP_mono (d e : ℤ) (h : (d : ℚ) ≤ (e : ℚ)) :
    calculateFundingCapFP (d : ℚ) ≤ calculateFundingCapFP (e : ℚ) := by
  have fp_nonneg : ∀ f : ℤ, 0 ≤ calculateFundingCapFP (f : ℚ) := by
    intro f
    by_cases hf1 : (f : ℚ) < 10
    · simp [calculateFundingCapFP, MIN_D_METRIC_REQUIRED, hf1]
    · by_cases hf2 : (250 : ℚ) ≤ (f : ℚ)
      · have hv : calculateFundingCapFP (f : ℚ) = 10000 := by
          simp [calculateFundingCapFP, MIN_D_METRIC_REQUIRED, D_METRIC_SCALE,
            MAX_GRANT_CAP, hf1, hf2]
        rw [hv]
        norm_num
      · obtain ⟨hb1, -⟩ := capFP_interp_bounds f (not_lt.mp hf1) (not_le.mp hf2)
        have := cap_interp_ge_thousand ((f : ℤ) : ℚ) (not_lt.mp hf1) (not_le.mp hf2)
        linarith
  have fp_le_max : ∀ f : ℤ, calculateFundingCapFP (f : ℚ) ≤ 10000 := by
    intro f
    by_cases hf1 : (f : ℚ) < 10
    · have hv : calculateFundingCapFP (f : ℚ) = 0 := by
        simp [calculateFundingCapFP, MIN_D_METRIC_REQUIRED, hf1]
      rw [hv]
      norm_num
    · by_cases hf2 : (250 : ℚ) ≤ (f : ℚ)
      · have hv : calculateFundingCapFP (f : ℚ) = 10000 := by
          simp [calculateFundingCapFP, MIN_D_METRIC_REQUIRED, D_METRIC_SCALE,
            MAX_GRANT_CAP, hf1, hf2]
        rw [hv]
      · obtain ⟨-, hb2⟩ := capFP_interp_bounds f (not_lt.mp hf1) (not_le.mp hf2)
        have := calculateFundingCap_le_max ((f : ℤ) : ℚ)
        linarith
  by_cases hd1 : (d : ℚ) < 10
  · have hv : calculateFundingCapFP (d : ℚ) = 0 := by
      simp [calculateFundingCapFP, MIN_D_METRIC_REQUIRED, hd1]
    rw [hv]
    exact fp_nonneg e
  · by_cases he2 : (250 : ℚ) ≤ (e : ℚ)
    · have hv : calculateFundingCapFP (e : ℚ) = 10000 := by
        have he1 : ¬(e : ℚ) < 10 := by
          push_neg at hd1 ⊢
          linarith
        simp [calculateFundingCapFP, MIN_D_METRIC_REQUIRED, D_METRIC_SCALE,
          MAX_GRANT_CAP, he1, he2]
      rw [hv]
      exact fp_le_max d
    · have hd2 : ¬(250 : ℚ) ≤ (d : ℚ) := by
        push_neg at he2 ⊢
        linarith
      have he1 : ¬(e : ℚ) < 10 := by
        push_neg at hd1 ⊢
        linarith
      have hd10 : (10 : ℚ) ≤ (d : ℚ) := not_lt.mp hd1
      have he10 : (10 : ℚ) ≤ (e : ℚ) := not_lt.mp he1
      have hadj : ∀ f : ℤ, (10 : ℚ) ≤ (f : ℚ) → (f : ℚ) < 250 →
          roundDouble ((f : ℚ) - 10) = ((f : ℚ) - 10) := by
        intro f hf1 hf2
        rw [show ((f : ℚ) - 10) = ((f - 10 : ℤ) : ℚ) by push_cast; ring]
        have hfz : (10 : ℤ) ≤ f := by exact_mod_cast hf1
        have hfz2 : f < 250 := by exact_mod_cast hf2
        rw [roundDouble_intCast_nonneg (f - 10) (by omega)
          (by rw [show (2 : ℤ) ^ 53 = 9007199254740992 by norm_num]; omega)]
      simp only [calculateFundingCapFP, MIN_D_METRIC_REQUIRED, D_METRIC_SCALE,
        MIN_GRANT_CAP, MAX_GRANT_CAP]
      rw [if_neg hd1, if_neg hd2, if_neg he1, if_neg he2]
      rw [show (250 : ℚ) - 10 = 240 by norm_num,
        show (10000 : ℚ) - 1000 = 9000 by norm_num,
        roundDouble_240, roundDouble_9000,
        hadj d hd10 (not_le.mp hd2), hadj e he10 (not_le.mp he2)]
      have hx0 : (0 : ℚ) ≤ ((d : ℚ) - 10) / 240 := by
        apply div_nonneg _ (by norm_num)
        linarith
      have hq1 : roundDouble (((d : ℚ) - 10) / 240) ≤
          roundDouble (((e : ℚ) - 10) / 240) := by
        apply roundDouble_mono hx0
        apply (div_le_div_iff_of_pos_right (by norm_num)).mpr
        linarith
      have hq1d0 : (0 : ℚ) ≤ roundDouble (((d : ℚ) - 10) / 240) :=
        roundDouble_nonneg hx0
      have hq2 : roundDouble (9000 * roundDouble (((d : ℚ) - 10) / 240)) ≤
          roundDouble (9000 * roundDouble (((e : ℚ) - 10) / 240)) := by
        apply roundDouble_mono (by positivity)
        nlinarith
      have hq2d0 : (0 : ℚ) ≤ roundDouble (9000 * roundDouble (((d : ℚ) - 10) / 240)) :=
        roundDouble_nonneg (by positivity)
      have hq3 : roundDouble (1000 + roundDouble (9000 * roundDouble (((d : ℚ) - 10) / 240))) ≤
          roundDouble (1000 + roundDouble (9000 * roundDouble (((e : ℚ) - 10) / 240))) := by
        apply roundDouble_mono (by linarith)
        linarith
      have := Int.floor_le_floor hq3
      exact_mod_cast this

/-! ### Reachable-state invariants -/

lemma reachable_bounds (s : DGEState) (h : Reachable s) :
    0 ≤ s.dMetric ∧ s.dMetric ≤ 250 ∧ s.milestoneProgress ≤ 4 ∧
      100 ≤ s.grantRequested ∧ s.grantRequested ≤ 10000 := by
  induction h with
  | init =>
      refine ⟨?_, ?_, ?_, ?_, ?_⟩ <;>
        norm_num [initState, MIN_D_METRIC_REQUIRED, MIN_GRANT_CAP]
  | tr s a hs hok ih =>
      obtain ⟨h1, h2, h3, h4, h5⟩ := ih
      cases a with
      | submit =>
          simp only [step]
          split
          · exact ⟨h1, h2, h3, h4, h5⟩
          · exact ⟨h1, h2, h3, h4, h5⟩
      | daoVote passed =>
          simp only [step]
          split
          · split
            · exact ⟨h1, h2, by norm_num, h4, h5⟩
            · exact ⟨h1, h2, h3, h4, h5⟩
          · exact ⟨h1, h2, h3, h4, h5⟩
      | milestoneSuccess =>
          simp only [step, GRANT_MILESTONES, D_METRIC_SCALE, D_METRIC_BOOST]
          split
          · refine ⟨?_, ?_, ?_, h4, h5⟩
            · simp only [List.length]
              split
              · exact le_min (by norm_num) (by linarith)
              · exact h1
            · simp only [List.length]
              split
              · exact min_le_left _ _
              · exact h2
            · simp only [List.length] at *
              rename_i hguard
              omega
          · exact ⟨h1, h2, h3, h4, h5⟩
      | founderDefault =>
          simp only [step]
          split
          · exact ⟨h1, h2, h3, h4, h5⟩
          · exact ⟨h1, h2, h3, h4, h5⟩
      | slashingVote slash =>
          simp only [step, MIN_D_METRIC_REQUIRED, D_METRIC_PENALTY]
          refine ⟨?_, ?_, h3, h4, h5⟩
          · split
            · exact le_trans (by norm_num) (le_max_left _ _)
            · exact h1
          · split
            · exact max_le (by norm_num) (by linarith)
            · exact h2
      | setDMetric v =>
          obtain ⟨hv1, hv2⟩ := hok
          simp only [step, handleInputChange]
          refine ⟨?_, ?_, by norm_num, h4, h5⟩
          · exact_mod_cast hv1
          · exact_mod_cast hv2
      | setGrantRequested v =>
          simp only [step, handleInputChange, MAX_GRANT_CAP, MIN_GRANT_REQUESTED]
          refine ⟨h1, h2, by norm_num, ?_, ?_⟩
          · exact le_min (by norm_num) (le_max_left _ _)
          · exact min_le_left _ _
      | setDepthSupply v =>
          simp only [step, handleInputChange]
          exact ⟨h1, h2, by norm_num, h4, h5⟩

/-! ### Claim C4: bond calculation -/

/-- C4 counterexample: the claim says the bond calculation fails with an
`InvalidPrice` error exactly when `tokenPriceUsd ≤ 0` and never returns a
non-positive token amount.  But `getBuilderBondAmount` (`src/DGE.jsx`
lines 48-50) has no validation at all: at `tokenPrice = -1 ≤ 0` it does not
fail — it returns the non-positive token amount `-300`. -/
theorem C4_counterexample_no_invalid_price_error :
    getBuilderBondAmount (-1) = -300 ∧ getBuilderBondAmount (-1) ≤ 0 := by
  have h : getBuilderBondAmount (-1) = -300 := by
    have hq : BUILDER_BOND_USD / (-1 : ℚ) = ((-300 : ℤ) : ℚ) := by
      norm_num [BUILDER_BOND_USD]
    rw [getBuilderBondAmount, hq, Int.ceil_intCast]
    norm_num
  exact ⟨h, by rw [h]; norm_num⟩

/-- C4 (amended): the bond calculation performs no input validation; for
every positive `tokenPriceUsd` it returns `ceil(BOND_USD / tokenPriceUsd)`
with `BOND_USD = 300`, which is a positive token amount, and in particular
`bond(0.5) = 600`; non-positive prices are not rejected (see the
counterexample). -/
theorem C4_bond_formula_for_positive_price (p : ℚ) (hp : 0 < p) :
    getBuilderBondAmount p = ((⌈(300 : ℚ) / p⌉ : ℤ) : ℚ) ∧
    0 < getBuilderBondAmount p ∧
    getBuilderBondAmount (1 / 2) = 600 ∧
    getBuilderBondAmount GOVERNANCE_TOKEN_PRICE = 600 := by
  have hhalf : getBuilderBondAmount (1 / 2) = 600 := by
    have hq : BUILDER_BOND_USD / (1 / 2 : ℚ) = ((600 : ℤ) : ℚ) := by
      norm_num [BUILDER_BOND_USD]
    rw [getBuilderBondAmount, hq, Int.ceil_intCast]
    norm_num
  refine ⟨by rw [getBuilderBondAmount, BUILDER_BOND_USD], ?_, hhalf, ?_⟩
  · rw [getBuilderBondAmount]
    have hceil : 0 < ⌈BUILDER_BOND_USD / p⌉ := by
      apply Int.ceil_pos.mpr
      apply div_pos _ hp
      norm_num [BUILDER_BOND_USD]
    exact_mod_cast hceil
  · have hgov : GOVERNANCE_TOKEN_PRICE = (1 / 2 : ℚ) := by
      norm_num [GOVERNANCE_TOKEN_PRICE]
    rw [hgov]
    exact hhalf

/-- C4 witness: the amended theorem applied at the concrete price 0.5. -/
theorem C4_witness :
    getBuilderBondAmount (1 / 2) = 600 ∧ 0 < getBuilderBondAmount (1 / 2) := by
  have h := C4_bond_formula_for_positive_price (1 / 2) (by norm_num)
  exact ⟨h.2.2.1, h.2.1⟩

/-! ### Claim C5: adaptive quorum -/

/-- C5 counterexample: the claim says the quorum calculation fails with an
`InvalidSupply` error exactly when `circulatingSupply < 0`.  But the
calculation (`src/DGE.jsx` lines 72-75) has no validation: at the negative
supply `-10^7` it does not fail — it returns `-0.05`, which even lies below
the claimed minimum `0.05`. -/
theorem C5_counterexample_no_invalid_supply_error :
    adaptiveQuorum (-(10 ^ 7)) = -(1 / 20) ∧ adaptiveQuorum (-(10 ^ 7)) < 0.05 := by
  have hbase : AQ_BASE_PERCENTAGE + (-(10 ^ 7) : ℚ) * AQ_SENSITIVITY_MULTIPLIER
      = -(1 / 20) := by
    norm_num [AQ_BASE_PERCENTAGE, AQ_SENSITIVITY_MULTIPLIER]
  have h : adaptiveQuorum (-(10 ^ 7)) = -(1 / 20) := by
    rw [adaptiveQuorum, hbase, min_eq_left (by norm_num [AQ_QUORUM_CEILING])]
  exact ⟨h, by rw [h]; norm_num⟩

/-- C5 (amended): the adaptive-quorum calculation performs no input
validation; for every supply it returns
`min(0.15, 0.05 + supply × 1e-8)`.  For every non-negative supply the
result lies in `[0.05, 0.15]`, is monotonically non-decreasing, and equals
`0.15` for every supply at least 10,000,000. -/
theorem C5_quorum_formula_for_nonneg_supply (su t : ℚ) (hs : 0 ≤ su) :
    (0.05 : ℚ) ≤ adaptiveQuorum su ∧
    adaptiveQuorum su ≤ 0.15 ∧
    (su ≤ t → adaptiveQuorum su ≤ adaptiveQuorum t) ∧
    ((10000000 : ℚ) ≤ su → adaptiveQuorum su = 0.15) ∧
    adaptiveQuorum su = min ((0.05 : ℚ) + su * 0.00000001) 0.15 := by
  refine ⟨?_, ?_, ?_, ?_, ?_⟩
  · apply le_min
    · have : (0 : ℚ) ≤ su * AQ_SENSITIVITY_MULTIPLIER :=
        mul_nonneg hs (by norm_num [AQ_SENSITIVITY_MULTIPLIER])
      rw [AQ_BASE_PERCENTAGE] at *
      linarith
    · norm_num [AQ_QUORUM_CEILING]
  · exact min_le_right _ _
  · intro hle
    apply min_le_min _ le_rfl
    have : su * AQ_SENSITIVITY_MULTIPLIER ≤ t * AQ_SENSITIVITY_MULTIPLIER :=
      mul_le_mul_of_nonneg_right hle (by norm_num [AQ_SENSITIVITY_MULTIPLIER])
    linarith
  · intro hbig
    apply min_eq_right
    have h1 : (10000000 : ℚ) * AQ_SENSITIVITY_MULTIPLIER ≤
        su * AQ_SENSITIVITY_MULTIPLIER :=
      mul_le_mul_of_nonneg_right hbig (by norm_num [AQ_SENSITIVITY_MULTIPLIER])
    rw [AQ_SENSITIVITY_MULTIPLIER] at h1 ⊢
    rw [AQ_QUORUM_CEILING, AQ_BASE_PERCENTAGE]
    norm_num at h1 ⊢
    linarith
  · rw [adaptiveQuorum, AQ_BASE_PERCENTAGE, AQ_SENSITIVITY_MULTIPLIER,
      AQ_QUORUM_CEILING]

/-- C5 witness: the amended theorem applied at supply 10,000,000. -/
theorem C5_witness :
    (0.05 : ℚ) ≤ adaptiveQuorum 10000000 ∧ adaptiveQuorum 10000000 = 0.15 := by
  have h := C5_quorum_formula_for_nonneg_supply 10000000 20000000 (by norm_num)
  exact ⟨h.1, h.2.2.2.1 (by norm_num)⟩

/-! ### Claim C6: funding cap -/

lemma cap_at_156 : calculateFundingCap 156 = 6475 := by
  simp only [calculateFundingCap, MIN_D_METRIC_REQUIRED, D_METRIC_SCALE,
    MIN_GRANT_CAP, MAX_GRANT_CAP]
  norm_num

/-- C6 counterexample: the claim asserts that at every integer reputation
strictly between the boundaries the funding cap equals the exact
interpolation `floor(1000 + (10000 − 1000) × (rep − 10) / (250 − 10))`.
At reputation 156 that exact value is 6475, but the source evaluates the
expression in binary64, where `9000 * ((156-10)/240)` rounds to one ulp
below `5475`, so `Math.floor` returns 6474: the faithfully rounded model
`calculateFundingCapFP` yields 6474 ≠ 6475. -/
theorem C6_counterexample_float_floor_at_156 :
    calculateFundingCapFP 156 = 6474 ∧
    ((⌊(1000 : ℚ) + (10000 - 1000) * (((156 : ℚ)) - 10) / (250 - 10)⌋ : ℤ) : ℚ)
      = 6475 ∧
    calculateFundingCap 156 = 6475 := by
  refine ⟨capFP_at_156, ?_, cap_at_156⟩
  norm_num

/-- C6 (amended): for every integer reputation input the funding-cap
function is total (it never throws: every branch returns a number): it
returns 0 below reputation 10 and 10000 at or above 250; on the
interpolation range the exact-rational value is
`floor(1000 + (10000 − 1000) × (rep − 10) / (250 − 10))` and the binary64
evaluation the source performs returns that value or that value minus one
(at reputation 156 it returns 6474 instead of 6475); `cap(10) = 1000` and
`cap(250) = 10000` hold exactly, and the function is monotonically
non-decreasing, in particular on `[10, 250]`. -/
theorem C6_funding_cap_fp_within_one_of_interpolation (d e : ℤ) :
    ((d : ℚ) < 10 → calculateFundingCapFP d = 0) ∧
    ((250 : ℚ) ≤ d → calculateFundingCapFP d = 10000) ∧
    ((10 : ℚ) ≤ d → (d : ℚ) < 250 →
      calculateFundingCap d =
        ((⌊(1000 : ℚ) + (10000 - 1000) * (((d : ℚ) - 10) / (250 - 10))⌋ : ℤ) : ℚ) ∧
      calculateFundingCap d - 1 ≤ calculateFundingCapFP d ∧
      calculateFundingCapFP d ≤ calculateFundingCap d) ∧
    calculateFundingCapFP 10 = 1000 ∧
    calculateFundingCapFP 250 = 10000 ∧
    ((d : ℚ) ≤ e → calculateFundingCapFP d ≤ calculateFundingCapFP e) := by
  refine ⟨?_, ?_, ?_, capFP_at_ten, ?_, ?_⟩
  · intro h
    simp [calculateFundingCapFP, MIN_D_METRIC_REQUIRED, h]
  · intro h
    have h1 : ¬((d : ℚ) < 10) := not_lt.mpr (by linarith)
    simp [calculateFundingCapFP, MIN_D_METRIC_REQUIRED, D_METRIC_SCALE,
      MAX_GRANT_CAP, h, h1]
  · intro h1 h2
    obtain ⟨hb1, hb2⟩ := capFP_interp_bounds d h1 h2
    exact ⟨cap_interp (d : ℚ) h1 h2, hb1, hb2⟩
  · norm_num [calculateFundingCapFP, MIN_D_METRIC_REQUIRED, D_METRIC_SCALE,
      MAX_GRANT_CAP]
  · intro h
    exact capFP_mono d e h

/-- C6 witness: the amended theorem applied at the concrete reputations
156 and 200: the binary64 cap at 156 lies within one unit below the exact
interpolation value, and monotonicity holds between 156 and 200. -/
theorem C6_witness :
    (calculateFundingCap ((156 : ℤ) : ℚ) - 1 ≤ calculateFundingCapFP ((156 : ℤ) : ℚ) ∧
      calculateFundingCapFP ((156 : ℤ) : ℚ) ≤ calculateFundingCap ((156 : ℤ) : ℚ)) ∧
    calculateFundingCapFP ((156 : ℤ) : ℚ) ≤ calculateFundingCapFP ((200 : ℤ) : ℚ) := by
  have h := C6_funding_cap_fp_within_one_of_interpolation 156 200
  exact ⟨(h.2.2.1 (by norm_num) (by norm_num)).2, h.2.2.2.2.2 (by norm_num)⟩

/-! ### Claim C7: eligibility evaluation -/

/-- C7: eligibility holds if and only if reputation is at least 10, the
requested amount is at least 100, and the requested amount is at most the
cap (the cap comparison is strict greater-than as the violation, so
equality with the cap is eligible, and reputation exactly 10 is eligible).
The evaluation is a pure function of its three inputs. -/
theorem C7_eligibility_iff (d maxCap req : ℚ) :
    isEligibleForSubmission d maxCap req = true ↔
      (10 ≤ d ∧ 100 ≤ req ∧ req ≤ maxCap) := by
  have hwithin : (grantCapStatus req maxCap = "Within Cap") ↔ req ≤ maxCap := by
    rw [grantCapStatus]
    split_ifs with h
    · constructor
      · intro he
        exact absurd he (by decide)
      · intro hle
        exact absurd hle (not_le.mpr h)
    · exact iff_of_true rfl (not_lt.mp h)
  simp only [isEligibleForSubmission, Bool.and_eq_true, decide_eq_true_eq,
    hwithin, MIN_D_METRIC_REQUIRED, MIN_GRANT_REQUESTED]
  tauto

/-! ### Claim C8: initial vote pass auto-releases the first tranche -/

/-- C8: from every Submitted state (submitted, not yet approved), resolving
the initial DAO vote with `passed = true` moves the state to Approved, sets
`completedMilestoneCount` to 1, and the released amount becomes
`requestedAmountUsd × (25 / 100)` — the first milestone percentage. -/
theorem C8_initial_vote_pass_releases_first_tranche (s : DGEState)
    (h1 : s.isSubmitted = true) (h2 : s.isApproved = false) :
    (step s (.daoVote true)).isApproved = true ∧
    (step s (.daoVote true)).milestoneProgress = 1 ∧
    fundsReleased (step s (.daoVote true)) = s.grantRequested * (25 / 100) := by
  have ht : step s (.daoVote true) =
      { s with isApproved := true, milestoneProgress := 1 } := by
    simp [step, h1, h2]
  rw [ht]
  refine ⟨rfl, rfl, ?_⟩
  simp [fundsReleased, GRANT_MILESTONES]

/-- C8 witness: the scenario of the spec — request 1000, submitted state,
vote passes: approved, one milestone completed, released 250. -/
theorem C8_witness :
    (step { initState with isSubmitted := true } (.daoVote true)).milestoneProgress
        = 1 ∧
    fundsReleased (step { initState with isSubmitted := true } (.daoVote true))
        = 250 := by
  have h := C8_initial_vote_pass_releases_first_tranche
    { initState with isSubmitted := true } rfl rfl
  refine ⟨h.2.1, ?_⟩
  rw [h.2.2]
  norm_num [initState, MIN_GRANT_CAP]

/-! ### Claim C9: final milestone success -/

/-- C9: from every Approved state with 3 of the 4 milestones completed,
`recordMilestoneSuccess` sets the milestone count to 4, boosts the
reputation to `min(250, reputation + 20)`, and reaches the Completed
configuration, which is terminal: further milestone-success or
founder-default calls leave it unchanged. -/
theorem C9_final_milestone_boosts_reputation (s : DGEState)
    (h1 : s.isApproved = true) (h3 : s.milestoneProgress = 3) :
    (step s .milestoneSuccess).milestoneProgress = 4 ∧
    (step s .milestoneSuccess).isApproved = true ∧
    (step s .milestoneSuccess).dMetric = min 250 (s.dMetric + 20) ∧
    step (step s .milestoneSuccess) .milestoneSuccess = step s .milestoneSuccess ∧
    step (step s .milestoneSuccess) .founderDefault = step s .milestoneSuccess := by
  have ht : step s .milestoneSuccess =
      { s with milestoneProgress := 4, dMetric := min 250 (s.dMetric + 20) } := by
    simp [step, h1, h3, GRANT_MILESTONES, D_METRIC_SCALE, D_METRIC_BOOST]
  rw [ht]
  refine ⟨rfl, h1, rfl, ?_, ?_⟩
  · simp [step, GRANT_MILESTONES]
  · simp [step, GRANT_MILESTONES]

/-- C9 witness: the scenario of the spec — starting reputation 240, final
milestone success yields reputation min(250, 260) = 250 and milestone
count 4. -/
theorem C9_witness :
    (step { initState with isApproved := true, milestoneProgress := 3, dMetric := 240 } .milestoneSuccess).milestoneProgress = 4 ∧
    (step { initState with isApproved := true, milestoneProgress := 3, dMetric := 240 } .milestoneSuccess).dMetric = 250 := by
  have h := C9_final_milestone_boosts_reputation
    { initState with isApproved := true, milestoneProgress := 3, dMetric := 240 }
    rfl rfl
  refine ⟨h.1, ?_⟩
  rw [h.2.2.1]
  rw [min_eq_left (by norm_num)]

/-! ### Claim C1: released funds after slashing-vote resolution -/

lemma submit_from_init : step initState .submit = { initState with isSubmitted := true } := by
  simp only [step]
  rw [if_pos]
  show isEligibleForSubmission initState.dMetric
      (calculateFundingCap initState.dMetric) initState.grantRequested = true
  have hd : initState.dMetric = 10 := by norm_num [initState, MIN_D_METRIC_REQUIRED]
  have hg : initState.grantRequested = 1000 := by norm_num [initState, MIN_GRANT_CAP]
  rw [hd, hg, cap_at_ten]
  rw [isEligibleForSubmission, grantCapStatus]
  norm_num [MIN_D_METRIC_REQUIRED, MIN_GRANT_REQUESTED]

/-- C1 (code bug): the claim — backed by the source comment
`// Maintain current released funds on termination` at `src/DGE.jsx:239` —
says that resolving the slashing vote freezes the released amount at the
k-milestone total.  In the code, however, `simulateSlashingVote` clears
both `isApproved` and `isSlashingVoteActive`, so the guard in
`fundsReleased` (`src/DGE.jsx:94`) makes the released amount 0 in the
terminal state.  Concretely: request 1000, vote passed, milestone 2
completed, founder defaults (released = 550 during the slashing vote),
then either resolution keeps `completedMilestoneCount = 2` but reports
released funds 0, not 550. -/
theorem C1_released_funds_zeroed_after_slashing_resolution :
    fundsReleased (step (step (step (step initState .submit) (.daoVote true)) .milestoneSuccess) .founderDefault) = 550 ∧
    (step (step (step (step (step initState .submit) (.daoVote true)) .milestoneSuccess) .founderDefault) (.slashingVote true)).milestoneProgress = 2 ∧
    fundsReleased (step (step (step (step (step initState .submit) (.daoVote true)) .milestoneSuccess) .founderDefault) (.slashingVote true)) = 0 ∧
    fundsReleased (step (step (step (step (step initState .submit) (.daoVote true)) .milestoneSuccess) .founderDefault) (.slashingVote false)) = 0 := by
  rw [submit_from_init]
  have h2 : step { initState with isSubmitted := true } (.daoVote true) = { initState with isSubmitted := true, isApproved := true, milestoneProgress := 1 } := by
    simp [step, initState]
  rw [h2]
  have h3 : step { initState with isSubmitted := true, isApproved := true, milestoneProgress := 1 } .milestoneSuccess = { initState with isSubmitted := true, isApproved := true, milestoneProgress := 2 } := by
    simp [step, initState, GRANT_MILESTONES]
  rw [h3]
  have h4 : step { initState with isSubmitted := true, isApproved := true, milestoneProgress := 2 } .founderDefault = { initState with isSubmitted := true, isApproved := true, milestoneProgress := 2, isSlashingVoteActive := true } := by
    simp [step, initState, GRANT_MILESTONES]
  rw [h4]
  have hmax : max MIN_D_METRIC_REQUIRED (initState.dMetric - D_METRIC_PENALTY) = initState.dMetric := by
    show max MIN_D_METRIC_REQUIRED (MIN_D_METRIC_REQUIRED - D_METRIC_PENALTY)
        = MIN_D_METRIC_REQUIRED
    rw [MIN_D_METRIC_REQUIRED, D_METRIC_PENALTY]
    rw [max_eq_left (by norm_num)]
  have h5t : step { initState with isSubmitted := true, isApproved := true, milestoneProgress := 2, isSlashingVoteActive := true } (.slashingVote true) = { initState with isSubmitted := true, milestoneProgress := 2 } := by
    simp [step, initState, MIN_D_METRIC_REQUIRED, D_METRIC_PENALTY]
  have h5f : step { initState with isSubmitted := true, isApproved := true, milestoneProgress := 2, isSlashingVoteActive := true } (.slashingVote false) = { initState with isSubmitted := true, milestoneProgress := 2 } := by
    simp [step, initState]
  rw [h5t, h5f]
  refine ⟨?_, rfl, ?_, ?_⟩
  · rw [fundsReleased]
    rw [if_neg (by simp)]
    show ((GRANT_MILESTONES.take 2).map
        (fun m => initState.grantRequested * (m.percent / 100))).sum = 550
    simp [GRANT_MILESTONES, initState, MIN_GRANT_CAP]
    norm_num
  · rw [fundsReleased, if_pos (by simp [initState])]
  · rw [fundsReleased, if_pos (by simp [initState])]

/-! ### Claim C2: illegal transitions -/

lemma cap_at_thirty : calculateFundingCap 30 = 1750 := by
  simp only [calculateFundingCap, MIN_D_METRIC_REQUIRED, D_METRIC_SCALE,
    MIN_GRANT_CAP, MAX_GRANT_CAP]
  norm_num

lemma set_thirty_from_init :
    step initState (.setDMetric 30) = { initState with dMetric := 30 } := by
  simp [step, handleInputChange, initState]

lemma submit_from_thirty :
    step { initState with dMetric := 30 } .submit =
      { initState with dMetric := 30, isSubmitted := true } := by
  simp only [step]
  rw [if_pos]
  show isEligibleForSubmission 30 (calculateFundingCap 30) initState.grantRequested
      = true
  have hg : initState.grantRequested = 1000 := by norm_num [initState, MIN_GRANT_CAP]
  rw [hg, cap_at_thirty, isEligibleForSubmission, grantCapStatus]
  norm_num [MIN_D_METRIC_REQUIRED, MIN_GRANT_REQUESTED]

/-- C2 counterexample: the claim says every transition request that is
invalid in the current state fails with an `InvalidTransition` error and
leaves the entire state unchanged.  But in the reachable Submitted state
with D-Metric 30 (no slashing vote active, so resolving a slashing vote is
not a valid transition), calling `simulateSlashingVote(true)` — which has
no guard in `src/DGE.jsx` lines 216-240 — mutates the state: the
reputation drops from 30 to 20, and no error is signalled (every handler
is a total function that only posts a toast message). -/
theorem C2_counterexample_illegal_slashing_call_mutates_state :
    (step (step initState (.setDMetric 30)) .submit).isSubmitted = true ∧
    (step (step initState (.setDMetric 30)) .submit).isApproved = false ∧
    (step (step initState (.setDMetric 30)) .submit).isSlashingVoteActive = false ∧
    (step (step initState (.setDMetric 30)) .submit).dMetric = 30 ∧
    (step (step (step initState (.setDMetric 30)) .submit) (.slashingVote true)).dMetric = 20 := by
  rw [set_thirty_from_init, submit_from_thirty]
  refine ⟨rfl, rfl, rfl, rfl, ?_⟩
  simp only [step]
  show max MIN_D_METRIC_REQUIRED ((30 : ℚ) - D_METRIC_PENALTY) = 20
  rw [MIN_D_METRIC_REQUIRED, D_METRIC_PENALTY]
  rw [max_eq_right (by norm_num)]
  norm_num

/-- C2 (amended): no handler signals an error.  The guarded handlers
(`recordMilestoneSuccess`, `resolveInitialVote`, `submit`,
`recordMilestoneDefault`) are silent no-ops when their guard fails — the
state is unchanged but no `InvalidTransition` error exists.
`resolveSlashingVote` is entirely unguarded: invoked in any state it
clears `isApproved` and `isSlashingVoteActive` and, with `slash = true`,
applies the reputation penalty, so an illegal `resolveSlashingVote` call
can mutate state. -/
theorem C2_illegal_calls_are_noops_except_slashing (s : DGEState)
    (passed slash : Bool) :
    (¬(s.isApproved = true ∧ s.milestoneProgress < GRANT_MILESTONES.length) →
      step s .milestoneSuccess = s) ∧
    (¬(s.isSubmitted = true ∧ s.isApproved = false) →
      step s (.daoVote passed) = s) ∧
    (¬isEligibleForSubmission s.dMetric (calculateFundingCap s.dMetric)
        s.grantRequested = true →
      step s .submit = s) ∧
    (¬(s.isApproved = true ∧ s.isSlashingVoteActive = false ∧
        s.milestoneProgress < GRANT_MILESTONES.length) →
      step s .founderDefault = s) ∧
    ((step s (.slashingVote slash)).isApproved = false ∧
     (step s (.slashingVote slash)).isSlashingVoteActive = false ∧
     (step s (.slashingVote slash)).milestoneProgress = s.milestoneProgress ∧
     (step s (.slashingVote slash)).dMetric =
       (if slash = true then max 10 (s.dMetric - 10) else s.dMetric)) := by
  refine ⟨?_, ?_, ?_, ?_, rfl, rfl, rfl, ?_⟩
  · intro h
    simp only [step]
    rw [if_neg h]
  · intro h
    have hc : ¬(s.isSubmitted = true ∧ ¬(s.isApproved = true)) := by
      intro hx
      exact h ⟨hx.1, by simpa using hx.2⟩
    simp only [step]
    rw [if_neg hc]
  · intro h
    simp only [step]
    rw [if_neg h]
  · intro h
    have hc : ¬(s.isApproved = true ∧ ¬(s.isSlashingVoteActive = true) ∧
        s.milestoneProgress < GRANT_MILESTONES.length) := by
      intro hx
      exact h ⟨hx.1, by simpa using hx.2.1, hx.2.2⟩
    simp only [step]
    rw [if_neg hc]
  · simp only [step, MIN_D_METRIC_REQUIRED, D_METRIC_PENALTY]

/-- C2 witness: the amended theorem applied at the initial state — an
illegal `recordMilestoneSuccess` is a silent no-op, and an illegal
`resolveSlashingVote` still clears the approved flag. -/
theorem C2_witness :
    step initState .milestoneSuccess = initState ∧
    (step initState (.slashingVote true)).isApproved = false := by
  have h := C2_illegal_calls_are_noops_except_slashing initState true true
  exact ⟨h.1 (by simp [initState]), h.2.2.2.2.1⟩

/-! ### Claim C3: reputation mutations -/

/-- C3: along every reachable execution, whenever a state-machine
transition changes the reputation, that transition is either a
final-milestone success (the milestone being completed is the last of the
4) or a slashing-vote resolution with `slash = true`, and the value the
reputation is mutated to lies in `[10, 250]`. -/
theorem C3_reputation_mutated_only_by_boost_and_penalty (s : DGEState)
    (a : Action) (hs : Reachable s) (hm : a.isMachine)
    (hchange : (step s a).dMetric ≠ s.dMetric) :
    ((a = .milestoneSuccess ∧ s.milestoneProgress + 1 = GRANT_MILESTONES.length ∧
        (step s a).dMetric = min 250 (s.dMetric + 20)) ∨
      (a = .slashingVote true ∧
        (step s a).dMetric = max 10 (s.dMetric - 10))) ∧
    10 ≤ (step s a).dMetric ∧ (step s a).dMetric ≤ 250 := by
  obtain ⟨hd0, hd250, -, -, -⟩ := reachable_bounds s hs
  cases a with
  | submit =>
      exfalso
      apply hchange
      simp only [step]
      split <;> rfl
  | daoVote passed =>
      exfalso
      apply hchange
      simp only [step]
      split
      · split <;> rfl
      · rfl
  | milestoneSuccess =>
      simp only [step] at hchange ⊢
      split at hchange
      · rename_i hguard
        rw [if_pos hguard]
        by_cases hfin : s.milestoneProgress + 1 = GRANT_MILESTONES.length
        · rw [if_pos hfin]
          refine ⟨Or.inl ⟨trivial, hfin, ?_⟩, ?_, ?_⟩
          · show min D_METRIC_SCALE (s.dMetric + D_METRIC_BOOST) = min 250 (s.dMetric + 20)
            rw [D_METRIC_SCALE, D_METRIC_BOOST]
          · show 10 ≤ min D_METRIC_SCALE (s.dMetric + D_METRIC_BOOST)
            rw [D_METRIC_SCALE, D_METRIC_BOOST]
            exact le_min (by norm_num) (by linarith)
          · show min D_METRIC_SCALE (s.dMetric + D_METRIC_BOOST) ≤ 250
            rw [D_METRIC_SCALE]
            exact min_le_left _ _
        · exfalso
          apply hchange
          simp [if_neg hfin]
      · exact absurd rfl hchange
  | founderDefault =>
      exfalso
      apply hchange
      simp only [step]
      split <;> rfl
  | slashingVote slash =>
      cases slash with
      | false =>
          exfalso
          apply hchange
          simp [step]
      | true =>
          refine ⟨Or.inr ⟨rfl, ?_⟩, ?_, ?_⟩
          · show max MIN_D_METRIC_REQUIRED (s.dMetric - D_METRIC_PENALTY) = max 10 (s.dMetric - 10)
            rw [MIN_D_METRIC_REQUIRED, D_METRIC_PENALTY]
          · show 10 ≤ max MIN_D_METRIC_REQUIRED (s.dMetric - D_METRIC_PENALTY)
            rw [MIN_D_METRIC_REQUIRED]
            exact le_max_left _ _
          · show max MIN_D_METRIC_REQUIRED (s.dMetric - D_METRIC_PENALTY) ≤ 250
            rw [MIN_D_METRIC_REQUIRED, D_METRIC_PENALTY]
            exact max_le (by norm_num) (by linarith)
  | setDMetric v => exact hm.elim
  | setGrantRequested v => exact hm.elim
  | setDepthSupply v => exact hm.elim

/-- C3 witness: the reachable Submitted state with reputation 30, mutated
by the slashing resolution, lands inside `[10, 250]`. -/
theorem C3_witness :
    10 ≤ (step (step initState (.setDMetric 30)) (.slashingVote true)).dMetric ∧
    (step (step initState (.setDMetric 30)) (.slashingVote true)).dMetric ≤ 250 := by
  have hr : Reachable (step initState (.setDMetric 30)) :=
    Reachable.tr initState (.setDMetric 30) Reachable.init
      (show (0 : ℤ) ≤ 30 ∧ (30 : ℤ) ≤ 250 from ⟨by norm_num, by norm_num⟩)
  have hch : (step (step initState (.setDMetric 30)) (.slashingVote true)).dMetric ≠
      (step initState (.setDMetric 30)).dMetric := by
    rw [set_thirty_from_init]
    simp only [step]
    show max MIN_D_METRIC_REQUIRED ((30 : ℚ) - D_METRIC_PENALTY) ≠ 30
    rw [MIN_D_METRIC_REQUIRED, D_METRIC_PENALTY]
    rw [max_eq_right (by norm_num)]
    norm_num
  have h := C3_reputation_mutated_only_by_boost_and_penalty
    (step initState (.setDMetric 30)) (.slashingVote true) hr trivial hch
  exact ⟨h.2.1, h.2.2⟩

/-! ### Claim C10: milestone-count bounds and released-funds bound -/

/-- C10: in every reachable state the milestone count lies in `[0, 4]` and
the released amount never exceeds the requested amount (the milestone
percentages sum to 100); and every operation either preserves the
milestone count, increments it by exactly one while it is strictly below
4, sets it to 1 (initial-vote approval), or resets it to 0. -/
theorem C10_milestone_count_and_released_bounds (s : DGEState) (a : Action)
    (hs : Reachable s) :
    s.milestoneProgress ≤ 4 ∧
    fundsReleased s ≤ s.grantRequested ∧
    ((step s a).milestoneProgress = s.milestoneProgress ∨
     ((step s a).milestoneProgress = s.milestoneProgress + 1 ∧
        s.milestoneProgress < GRANT_MILESTONES.length) ∨
     ((step s a).milestoneProgress = 1 ∧ a = .daoVote true) ∨
     ((step s a).milestoneProgress = 0 ∧ ¬a.isMachine)) := by
  obtain ⟨-, -, h3, h4, -⟩ := reachable_bounds s hs
  refine ⟨h3, ?_, ?_⟩
  · rw [fundsReleased]
    split_ifs with hflag
    · linarith
    · have hcases : s.milestoneProgress = 0 ∨ s.milestoneProgress = 1 ∨
          s.milestoneProgress = 2 ∨ s.milestoneProgress = 3 ∨
          s.milestoneProgress = 4 := by omega
      rcases hcases with h | h | h | h | h <;> rw [h] <;>
        simp [GRANT_MILESTONES] <;> linarith
  · cases a with
    | submit =>
        left
        simp only [step]
        split <;> rfl
    | daoVote passed =>
        cases passed with
        | true =>
            by_cases hg : s.isSubmitted = true ∧ ¬(s.isApproved = true)
            · right; right; left
              refine ⟨?_, rfl⟩
              simp only [step]
              rw [if_pos hg]
              simp
            · left
              simp only [step]
              rw [if_neg hg]
        | false =>
            left
            simp only [step]
            split
            · simp
            · rfl
    | milestoneSuccess =>
        by_cases hg : s.isApproved = true ∧
            s.milestoneProgress < GRANT_MILESTONES.length
        · right; left
          simp only [step]
          rw [if_pos hg]
          exact ⟨rfl, hg.2⟩
        · left
          simp only [step]
          rw [if_neg hg]
    | founderDefault =>
        left
        simp only [step]
        split <;> rfl
    | slashingVote slash =>
        left
        rfl
    | setDMetric v =>
        right; right; right
        exact ⟨rfl, fun h => h⟩
    | setGrantRequested v =>
        right; right; right
        exact ⟨rfl, fun h => h⟩
    | setDepthSupply v =>
        right; right; right
        exact ⟨rfl, fun h => h⟩

/-- C10 witness: the invariant instantiated at the initial state. -/
theorem C10_witness :
    initState.milestoneProgress ≤ 4 ∧
    fundsReleased initState ≤ initState.grantRequested := by
  have h := C10_milestone_count_and_released_bounds initState .submit
    Reachable.init
  exact ⟨h.1, h.2.1⟩

end DGE
